import Mathlib

/-!
Verification development for the `dm-recommender` forum crawler.

The Python sources under `scraper/` are shallowly embedded below:
pure functions become Lean functions, network access and HTML parsing
(the "markup-query collaborator" of the spec) become explicit oracle
parameters, exceptions become `Except`, and Python `dict`s become
association lists.  Python truthiness on optional strings is made
explicit (`None` and `""` are falsy).
-/

set_option autoImplicit false

namespace DmRec

/-- Is `p` a leading run of `s`?  (`str.startswith`.) -/
def leads_with : List Char → List Char → Bool
  | [], _ => true
  | _ :: _, [] => false
  | a :: p, b :: s => a = b && leads_with p s

/-- Does `p` occur inside `s`?  (Python `in` on strings.) -/
def has_sub_chars (p : List Char) : List Char → Bool
  | [] => p.isEmpty
  | b :: s => leads_with p (b :: s) || has_sub_chars p s

/-- Substring test on strings. -/
def has_sub (s pat : String) : Bool :=
  has_sub_chars pat.data s.data

/-- `s.startswith(p)`. -/
def starts_with (s p : String) : Bool :=
  leads_with p.data s.data

/-- `s == ""` (falsiness of a string). -/
def str_empty (s : String) : Bool :=
  s.data.isEmpty

/-- Python truthiness of an optional string: `None` and `""` are falsy. -/
def truthy_opt : Option String → Bool
  | none => false
  | some s => !str_empty s

/-- Association-list lookup, mirroring Python `dict.__getitem__`/`in`;
insertion is modelled by prepending, so lookup returns the most recent binding. -/
def lookupA {α : Type} (l : List (String × α)) (k : String) : Option α :=
  match l with
  | [] => none
  | (k', v) :: rest => if k' = k then some v else lookupA rest k

/-- `s.isdigit()` for ASCII decimal strings (nonempty, all digits). -/
def str_isdigit (s : String) : Bool :=
  !str_empty s && s.data.all Char.isDigit

/-- `int(s)` for a string of ASCII decimal digits. -/
def str_toNat (s : String) : Nat :=
  s.data.foldl (fun n c => n * 10 + (c.toNat - 48)) 0

/-! ## Fetch gateway (`scraper/rate_limiter.py`, `fetch`)

The network is an oracle `net : Nat → HttpAnswer` giving the answer to the
`k`-th HTTP request issued by one `fetch` call (the loop performs exactly one
request per iteration, so iteration `attempt` receives `net attempt`).
Sleeping is recorded as a list of slept durations in seconds; the rate
limiter's wall-clock waiting is outside the embedding. -/

/-- One HTTP answer: a transport-level error (`requests.RequestException`)
or a response with status code, optional `Retry-After` header and body. -/
inductive HttpAnswer : Type
  | netError
  | reply (code : Nat) (retryAfter : Option String) (body : String)
deriving DecidableEq

/-- Outcome of `fetch`: body text, re-raised network exception, an
`HTTPError` from `raise_for_status`, or the final `RuntimeError`
("Failed to fetch ... after N attempts."). -/
inductive FetchOutcome : Type
  | ok (body : String)
  | netExc
  | httpError (code : Nat)
  | exhausted
deriving DecidableEq

/-- Delay chosen on a 429: the `Retry-After` header value when present and
numeric, else the fixed 60-second fallback (lines 68-72 of the source). -/
def retry_delay (retryAfter : Option String) : Nat :=
  match retryAfter with
  | some ra => if !str_empty ra && str_isdigit ra then str_toNat ra else 60
  | none => 60

/-- `resp.raise_for_status()` raises exactly for 4xx/5xx status codes. -/
def raises_for_status (code : Nat) : Bool :=
  400 ≤ code && code < 600

/-- The body of `fetch`'s `for attempt in range(1, max_retries + 1)` loop,
returning the outcome together with the list of slept durations.  The loop
is compiled to recursion on `remaining = max_retries + 1 - attempt`, the
number of loop iterations still to run, so `remaining = 0` is loop exit
(the final `RuntimeError`) and `remaining = 1` means
`attempt == max_retries` (the final attempt). -/
def fetch_go (net : Nat → HttpAnswer) : Nat → Nat → FetchOutcome × List Nat
  | _, 0 => (.exhausted, [])
  | attempt, remaining + 1 =>
    match net attempt with
    | .netError =>
      if remaining = 0 then (.netExc, [])
      else
        let r := fetch_go net (attempt + 1) remaining
        (r.1, 5 * attempt :: r.2)
    | .reply code retryAfter body =>
      if code = 429 then
        let d := retry_delay retryAfter
        let r := fetch_go net (attempt + 1) remaining
        (r.1, d :: r.2)
      else if 500 ≤ code ∧ code < 600 then
        if remaining = 0 then (.httpError code, [])
        else
          let r := fetch_go net (attempt + 1) remaining
          (r.1, 10 * attempt :: r.2)
      else if raises_for_status code then (.httpError code, [])
      else (.ok body, [])

/-- `fetch(url, max_retries)`: run the attempt loop from attempt 1 with a
budget of `max_retries` iterations. -/
def fetch (net : Nat → HttpAnswer) (max_retries : Nat) : FetchOutcome × List Nat :=
  fetch_go net 1 max_retries

/-! ## URL helpers (`urllib.parse.urlparse(...).path`, `str.rstrip`/`lstrip`,
`absolute_url` from `scraper/post_scraper.py`) -/

/-- A character allowed in a URL scheme after the leading letter. -/
def scheme_char (c : Char) : Bool :=
  c.isAlpha || c.isDigit || c = '+' || c = '-' || c = '.'

/-- Split off a leading `scheme:` as in `urllib.parse.urlsplit`: a colon at a
positive index whose prefix is a letter followed by scheme characters. -/
def drop_scheme (cs : List Char) : List Char :=
  match cs.findIdx? (· = ':') with
  | none => cs
  | some i =>
    if 0 < i ∧ (cs.take i).all scheme_char ∧ (cs.headD ' ').isAlpha then
      cs.drop (i + 1)
    else cs

/-- Skip a `//netloc` component: everything up to the next `/`, `?` or `#`. -/
def drop_netloc (cs : List Char) : List Char :=
  match cs with
  | '/' :: '/' :: rest => rest.dropWhile (fun c => c ≠ '/' ∧ c ≠ '?' ∧ c ≠ '#')
  | _ => cs

/-- `urllib.parse.urlparse(url).path`: strip scheme and netloc, then cut at
the first `#` (fragment) and `?` (query). -/
def url_path (url : String) : String :=
  String.mk (((drop_netloc (drop_scheme url.data)).takeWhile (· ≠ '#')).takeWhile (· ≠ '?'))

/-- `s.rstrip("/")`. -/
def rstrip_slash (s : String) : String :=
  String.mk (s.data.reverse.dropWhile (· = '/')).reverse

/-- `s.lstrip("/")`. -/
def lstrip_slash (s : String) : String :=
  String.mk (s.data.dropWhile (· = '/'))

/-- `BASE_URL` constant of `scraper/post_scraper.py`. -/
def BASE_URL : String := "https://www.personalitycafe.com"

/-- `absolute_url(href)` from `scraper/post_scraper.py`. -/
def absolute_url (href : String) : String :=
  if starts_with href "http" then href
  else if starts_with href "/" then BASE_URL ++ href
  else BASE_URL ++ "/" ++ lstrip_slash href

/-! ## SHA-1 (`hashlib.sha1(...).hexdigest()`)

A direct executable embedding of SHA-1 over a list of bytes, used by
`_thread_id_from_url`'s hash fallback.  Machine words are `Nat`s reduced
mod 2^32 at every update. -/

/-- Reduce to a 32-bit word. -/
def w32 (n : Nat) : Nat := n % 4294967296

/-- Rotate a 32-bit word left by `n` bits. -/
def rotl (n x : Nat) : Nat :=
  w32 (x * 2 ^ n) + (x % 4294967296) / 2 ^ (32 - n)

/-- UTF-8 encoding of one character (Lean chars are Unicode scalar values,
so Python's `errors="ignore"` never fires). -/
def utf8_char (c : Char) : List Nat :=
  let n := c.toNat
  if n < 128 then [n]
  else if n < 2048 then [192 + n / 64, 128 + n % 64]
  else if n < 65536 then [224 + n / 4096, 128 + n / 64 % 64, 128 + n % 64]
  else [240 + n / 262144, 128 + n / 4096 % 64, 128 + n / 64 % 64, 128 + n % 64]

/-- `s.encode("utf-8", "ignore")`. -/
def utf8_bytes (cs : List Char) : List Nat :=
  cs.flatMap utf8_char

/-- SHA-1 message padding: `0x80`, zeros to 56 mod 64, then the bit length
as an 8-byte big-endian integer. -/
def sha1_pad (msg : List Nat) : List Nat :=
  let L := msg.length
  let k := (119 - L % 64) % 64
  let b := 8 * L
  msg ++ [128] ++ List.replicate k 0 ++
    [b / 2 ^ 56 % 256, b / 2 ^ 48 % 256, b / 2 ^ 40 % 256, b / 2 ^ 32 % 256,
     b / 2 ^ 24 % 256, b / 2 ^ 16 % 256, b / 2 ^ 8 % 256, b % 256]

/-- Split a byte list into 64-byte chunks. -/
def chunks64 : List Nat → List (List Nat)
  | [] => []
  | x :: rest => (x :: rest).take 64 :: chunks64 ((x :: rest).drop 64)
termination_by l => l.length
decreasing_by
  simp [List.length_drop]
  omega

/-- Assemble bytes into big-endian 32-bit words. -/
def chunk_words : List Nat → List Nat
  | b0 :: b1 :: b2 :: b3 :: rest =>
    (b0 * 16777216 + b1 * 65536 + b2 * 256 + b3) :: chunk_words rest
  | _ => []

/-- The SHA-1 message schedule `W` for one block. -/
def sha1_W (ws : List Nat) : Nat → Nat
  | i =>
    if _h : i < 16 then ws.getD i 0
    else
      rotl 1 (sha1_W ws (i - 3) ^^^ sha1_W ws (i - 8) ^^^
              sha1_W ws (i - 14) ^^^ sha1_W ws (i - 16))
termination_by i => i
decreasing_by
  all_goals omega

/-- SHA-1 round function. -/
def sha1_f (t b c d : Nat) : Nat :=
  if t < 20 then (b &&& c) ||| ((4294967295 - w32 b) &&& d)
  else if t < 40 then b ^^^ c ^^^ d
  else if t < 60 then (b &&& c) ||| (b &&& d) ||| (c &&& d)
  else b ^^^ c ^^^ d

/-- SHA-1 round constants. -/
def sha1_k (t : Nat) : Nat :=
  if t < 20 then 1518500249
  else if t < 40 then 1859775393
  else if t < 60 then 2400959708
  else 3395469782

/-- The five-word SHA-1 state. -/
structure Sha1St where
  a : Nat
  b : Nat
  c : Nat
  d : Nat
  e : Nat

/-- Initial SHA-1 state. -/
def sha1_init : Sha1St :=
  ⟨1732584193, 4023233417, 2562383102, 271733878, 3285377520⟩

/-- One SHA-1 round. -/
def sha1_round (W : Nat → Nat) (st : Sha1St) (t : Nat) : Sha1St :=
  ⟨w32 (rotl 5 st.a + sha1_f t st.b st.c st.d + st.e + sha1_k t + W t),
   st.a, rotl 30 st.b, st.c, st.d⟩

/-- Process one 64-byte block. -/
def sha1_block (st : Sha1St) (block : List Nat) : Sha1St :=
  let W := sha1_W (chunk_words block)
  let f := (List.range 80).foldl (sha1_round W) st
  ⟨w32 (st.a + f.a), w32 (st.b + f.b), w32 (st.c + f.c),
   w32 (st.d + f.d), w32 (st.e + f.e)⟩

/-- One lowercase hexadecimal digit. -/
def hex_digit (n : Nat) : Char :=
  if n < 10 then Char.ofNat (48 + n) else Char.ofNat (87 + n)

/-- A 32-bit word as exactly eight hexadecimal characters. -/
def to_hex8 (w : Nat) : List Char :=
  [hex_digit (w / 16 ^ 7 % 16), hex_digit (w / 16 ^ 6 % 16),
   hex_digit (w / 16 ^ 5 % 16), hex_digit (w / 16 ^ 4 % 16),
   hex_digit (w / 16 ^ 3 % 16), hex_digit (w / 16 ^ 2 % 16),
   hex_digit (w / 16 % 16), hex_digit (w % 16)]

/-- `hashlib.sha1(msg).hexdigest()` as a list of 40 hex characters. -/
def sha1_hex (msg : List Nat) : List Char :=
  let f := (chunks64 (sha1_pad msg)).foldl sha1_block sha1_init
  to_hex8 f.a ++ to_hex8 f.b ++ to_hex8 f.c ++ to_hex8 f.d ++ to_hex8 f.e

/-! ## Thread id (`scraper/post_scraper.py`, `_thread_id_from_url`) -/

/-- `re.search(r"\.(\d+)$", s)`: the maximal run of trailing digits when it
is nonempty and preceded by a dot. -/
def re_dot_digits_end (s : String) : Option String :=
  let r := s.data.reverse.takeWhile Char.isDigit
  if r.isEmpty then none
  else
    match (s.data.reverse.dropWhile Char.isDigit).head? with
    | some '.' => some (String.mk r.reverse)
    | _ => none

/-- `re.search(r"(\d+)$", s)`: the maximal nonempty run of trailing digits. -/
def re_digits_end (s : String) : Option String :=
  let r := s.data.reverse.takeWhile Char.isDigit
  if r.isEmpty then none else some (String.mk r.reverse)

/-- `_thread_id_from_url(thread_url)`. -/
def thread_id_from_url (thread_url : String) : String :=
  let path := rstrip_slash (url_path thread_url)
  match re_dot_digits_end path with
  | some d => d
  | none =>
    match re_digits_end path with
    | some d => d
    | none => String.mk ((sha1_hex (utf8_bytes thread_url.data)).take 16)

/-! ## Identity resolver (`scraper/user_scraper.py`)

HTML parsing (`parse_user_about_page`, `parse_user_profile_page`,
`parse_user_tooltip`) is the out-of-scope markup-query collaborator and is
passed as oracle functions from raw page text to parsed data; the record a
parser builds for a given page also bakes in the `profile_url`/`user_id`
arguments the Python parser receives.  Network fetches are an oracle
`net : String → Except Unit String` (`.error` = the `fetch` call raised). -/

/-- The user record shape built by `_build_user_record` (the wall-clock
`scraped_at` bookkeeping field is outside the embedding). -/
structure UserRec where
  user_id : Option String
  username : Option String
  profile_url : String
  join_date : Option String
  role : Option String
  gender : Option String
  country_of_birth : Option String
  location : Option String
  mbti_type : Option String
  enneagram_type : Option String
  socionics : Option String
  occupation : Option String
  replies : Option Nat
  discussions_created : Option Nat
  reaction_score : Option Nat
  points : Option Nat
  media_count : Option Nat
  showcase_count : Option Nat
deriving DecidableEq

/-- The optional demographic side-map from `parse_user_about_page` (every
stored value is truthy in the source since falsy values are skipped). -/
structure AboutData where
  location : Option String
  gender : Option String
  mbti_type : Option String
  enneagram_type : Option String
  country_of_birth : Option String
  socionics : Option String
  occupation : Option String
deriving DecidableEq

/-- An empty about side-map (no keys stored). -/
def empty_about : AboutData := ⟨none, none, none, none, none, none, none⟩

/-- `re.search(r'\.(\d+)/?$', path)`: at most one trailing slash, then a
nonempty digit run preceded by a dot. -/
def re_pat_dot (path : String) : Option String :=
  let cs := match path.data.reverse with
            | '/' :: rest => rest
            | other => other
  let r := cs.takeWhile Char.isDigit
  if r.isEmpty then none
  else
    match (cs.dropWhile Char.isDigit).head? with
    | some '.' => some (String.mk r.reverse)
    | _ => none

/-- `re.search(r'/(\d+)/?$', path)`: at most one trailing slash, then a
nonempty digit run preceded by a slash. -/
def re_pat_slash (path : String) : Option String :=
  let cs := match path.data.reverse with
            | '/' :: rest => rest
            | other => other
  let r := cs.takeWhile Char.isDigit
  if r.isEmpty then none
  else
    match (cs.dropWhile Char.isDigit).head? with
    | some '/' => some (String.mk r.reverse)
    | _ => none

/-- `extract_user_id_from_profile_url(profile_url)`. -/
def extract_user_id_from_profile_url (profile_url : String) : Option String :=
  if str_empty profile_url then none
  else
    let path := url_path profile_url
    match re_pat_dot path with
    | some d => some d
    | none => re_pat_slash path

/-- `_merge_user_details(user, extra)`: overwrite a field only when the
side-map holds a truthy value for it. -/
def merge_user_details (u : UserRec) (extra : AboutData) : UserRec :=
  { u with
    location := if truthy_opt extra.location then extra.location else u.location,
    gender := if truthy_opt extra.gender then extra.gender else u.gender,
    mbti_type := if truthy_opt extra.mbti_type then extra.mbti_type else u.mbti_type,
    enneagram_type :=
      if truthy_opt extra.enneagram_type then extra.enneagram_type else u.enneagram_type,
    country_of_birth :=
      if truthy_opt extra.country_of_birth then extra.country_of_birth else u.country_of_birth,
    socionics := if truthy_opt extra.socionics then extra.socionics else u.socionics,
    occupation := if truthy_opt extra.occupation then extra.occupation else u.occupation }

/-- `fetch_user_profile(profile_url)`.  `parse_profile` returns `none` when
the profile page lacked meaningful data (`_has_meaningful_profile_data`
false); `parse_tooltip` always yields a record.  An `.error` result models
the uncaught exception from the tooltip-tier `fetch`. -/
def fetch_user_profile (net : String → Except Unit String)
    (parse_about : String → AboutData)
    (parse_profile : String → Option UserRec)
    (parse_tooltip : String → UserRec)
    (profile_url : String) : Except Unit (Option UserRec) :=
  match extract_user_id_from_profile_url profile_url with
  | none => .ok none
  | some _uid =>
    let about_data :=
      match net (rstrip_slash profile_url ++ "/about") with
      | .ok html => parse_about html
      | .error _ => empty_about
    let profile_html : Option String :=
      match net profile_url with
      | .ok html => some html
      | .error _ => none
    match profile_html.bind parse_profile with
    | some profile => .ok (some (merge_user_details profile about_data))
    | none =>
      match net (rstrip_slash profile_url ++ "/tooltip") with
      | .error e => .error e
      | .ok html => .ok (some (merge_user_details (parse_tooltip html) about_data))

deriving instance DecidableEq for Except

/-- Result of one `get_or_fetch_user` call: the returned value (or the
propagated exception), the cache afterwards, and how many underlying
`fetch_user_profile` resolutions were performed. -/
structure ResolveOut where
  result : Except Unit (Option UserRec)
  cache : List (String × UserRec)
  fetches : Nat
deriving DecidableEq

/-- `get_or_fetch_user(profile_url, user_cache)` over an abstract
`fp = fetch_user_profile` oracle.  A returned record is always a nonempty
dict in the source, so `if profile:` is the `some` case. -/
def get_or_fetch_user (fp : String → Except Unit (Option UserRec))
    (profile_url : String) (user_cache : List (String × UserRec)) : ResolveOut :=
  if str_empty profile_url then ⟨.ok none, user_cache, 0⟩
  else
    match extract_user_id_from_profile_url profile_url with
    | none => ⟨.ok none, user_cache, 0⟩
    | some user_id =>
      match lookupA user_cache user_id with
      | some u => ⟨.ok (some u), user_cache, 0⟩
      | none =>
        match fp profile_url with
        | .error e => ⟨.error e, user_cache, 1⟩
        | .ok none => ⟨.ok none, user_cache, 1⟩
        | .ok (some profile) => ⟨.ok (some profile), (user_id, profile) :: user_cache, 1⟩

/-- A sequence of `get_or_fetch_user` calls threading the cache, collecting
each call's returned value and the total number of resolutions. -/
def run_resolutions (fp : String → Except Unit (Option UserRec)) :
    List String → List (String × UserRec) →
    List (Except Unit (Option UserRec)) × List (String × UserRec) × Nat
  | [], cache => ([], cache, 0)
  | url :: rest, cache =>
    let r := get_or_fetch_user fp url cache
    let t := run_resolutions fp rest r.cache
    (r.result :: t.1, t.2.1, r.fetches + t.2.2)

/-! ## Mention extraction (`scraper/post_scraper.py`, `_extract_mentions`)

A post body is `none` (no `.message-body .bbWrapper` element) or the list of
its `<a>` elements; for each link the embedding keeps the attributes the
source reads: `href`, `class` list, `data-user-id`, and the stripped text. -/

/-- One `<a>` element inside a post body. -/
structure ALink where
  href : Option String
  classes : List String
  data_user_id : Option String
  text : String
deriving DecidableEq

/-- A mention target produced by `_extract_mentions`. -/
structure Mention where
  profile_url : String
  username : Option String
  user_id : Option String
deriving DecidableEq

/-- The dedup key used by `_extract_mentions`'s `seen` set. -/
def mention_key (m : Mention) : String × Option String :=
  (m.profile_url, m.username)

/-- The loop of `_extract_mentions` with its `seen` set of
`(profile_url, username)` pairs. -/
def extract_mentions_go : List ALink → List (String × Option String) → List Mention
  | [], _ => []
  | l :: rest, seen =>
    match l.href with
    | none => extract_mentions_go rest seen
    | some href =>
      if str_empty href then extract_mentions_go rest seen
      else if !has_sub href "/members/" then extract_mentions_go rest seen
      else if !(truthy_opt l.data_user_id ||
                l.classes.any fun cls => leads_with "username".data cls.data) then
        extract_mentions_go rest seen
      else
        let purl := absolute_url href
        let uname := if str_empty l.text then none else some l.text
        if (purl, uname) ∈ seen then extract_mentions_go rest seen
        else
          ⟨purl, uname, extract_user_id_from_profile_url purl⟩ ::
            extract_mentions_go rest ((purl, uname) :: seen)

/-- `_extract_mentions(body_el)`. -/
def extract_mentions (body_el : Option (List ALink)) : List Mention :=
  match body_el with
  | none => []
  | some links => extract_mentions_go links []

/-! ## Interaction builder (`_build_interactions_for_post`) -/

/-- A quote target produced by `_extract_quote_targets`. -/
structure Quote where
  target_post_id : Option String
  target_username : Option String
deriving DecidableEq

/-- A raw post fragment as returned by `parse_posts_from_page`. -/
structure Fragment where
  post_id : Option String
  username : Option String
  profile_url : Option String
  timestamp : Option String
  text : Option String
  quotes : List Quote
  mentions : List Mention
deriving DecidableEq

/-- A `PostRecord` row built by `scrape_thread` (the wall-clock `scraped_at`
field is outside the embedding). -/
structure PostRow where
  thread_id : String
  thread_url : String
  page_url : String
  post_id : Option String
  user_id : Option String
  username : Option String
  timestamp : Option String
  text : Option String
deriving DecidableEq

/-- A `post_author_index` entry. -/
structure AuthorEntry where
  user_id : Option String
  username : Option String
deriving DecidableEq

inductive InteractionType : Type
  | quote
  | mention
deriving DecidableEq

/-- An `InteractionRecord`; `interaction_id` models `uuid4()` freshness as a
run-local counter, and `scraped_at` is outside the embedding. -/
structure Interaction where
  interaction_id : Nat
  replying_post_id : Option String
  target_post_id : Option String
  source_user_id : Option String
  target_user_id : Option String
  thread_id : String
  interaction_type : InteractionType
  confidence : ℚ
deriving DecidableEq

/-- Resolution of one quote target against the post-author index
(`if target_post_id and target_post_id in post_author_index`). -/
def quote_resolution (post_author_index : List (String × AuthorEntry))
    (q : Quote) : Option String :=
  match q.target_post_id with
  | some tp =>
    if !str_empty tp then
      match lookupA post_author_index tp with
      | some entry => entry.user_id
      | none => none
    else none
  | none => none

/-- The quote loop of `_build_interactions_for_post`. -/
def build_quote_interactions (thread_id : String) (replying_post_id : Option String)
    (source_user_id : Option String)
    (post_author_index : List (String × AuthorEntry)) :
    List Quote → Nat → List Interaction × Nat
  | [], fresh => ([], fresh)
  | q :: rest, fresh =>
    let t := build_quote_interactions thread_id replying_post_id source_user_id
      post_author_index rest (fresh + 1)
    (⟨fresh, replying_post_id, q.target_post_id, source_user_id,
      quote_resolution post_author_index q,
      thread_id, .quote, 1.0⟩ :: t.1, t.2)

/-- The mention loop of `_build_interactions_for_post`. -/
def build_mention_interactions (thread_id : String) (replying_post_id : Option String)
    (source_user_id : Option String) :
    List Mention → Nat → List Interaction × Nat
  | [], fresh => ([], fresh)
  | m :: rest, fresh =>
    let target_user_id0 := m.user_id
    let target_user_id :=
      if !truthy_opt target_user_id0 && !str_empty m.profile_url then
        extract_user_id_from_profile_url m.profile_url
      else target_user_id0
    if !truthy_opt target_user_id && !truthy_opt m.username then
      build_mention_interactions thread_id replying_post_id source_user_id rest fresh
    else
      let t := build_mention_interactions thread_id replying_post_id source_user_id
        rest (fresh + 1)
      (⟨fresh, replying_post_id, none, source_user_id, target_user_id,
        thread_id, .mention, 0.7⟩ :: t.1, t.2)

/-- `_build_interactions_for_post(...)`, returning the interactions and the
advanced freshness counter. -/
def build_interactions_for_post (thread_id : String) (post_row : PostRow)
    (quotes : List Quote) (mentions : List Mention)
    (post_author_index : List (String × AuthorEntry)) (fresh : Nat) :
    List Interaction × Nat :=
  if !truthy_opt post_row.post_id then ([], fresh)
  else
    let qs := build_quote_interactions thread_id post_row.post_id post_row.user_id
      post_author_index quotes fresh
    let ms := build_mention_interactions thread_id post_row.post_id post_row.user_id
      mentions qs.2
    (qs.1 ++ ms.1, ms.2)

/-! ## Thread orchestrator (`scrape_thread`)

`get_thread_pages` and the in-loop `fetch` + `parse_posts_from_page` are
abstracted: the thread's page URLs are an input list, and a page oracle
maps a page URL to its parsed fragments or a fetch failure.  An exception
aborts the thread but the caller-owned user cache keeps the mutations made
before the failure, so errors carry the cache. -/

/-- Mutable state of `scrape_thread`'s loops. -/
structure TState where
  cache : List (String × UserRec)
  posts : List PostRow
  inters : List Interaction
  index : List (String × AuthorEntry)
  fresh : Nat
deriving DecidableEq

/-- Author resolution for one fragment (lines 377-386 of
`scraper/post_scraper.py`): when the fragment's profile URL is truthy,
consult `get_or_fetch_user`; prefer the canonical username from the
profile when truthy; on a null result derive `user_id` from the URL. -/
def resolve_author (fp : String → Except Unit (Option UserRec))
    (profile_url : Option String) (frag_username : Option String)
    (cache : List (String × UserRec)) :
    Except (List (String × UserRec))
      ((Option String × Option String) × List (String × UserRec)) :=
  match profile_url with
  | some purl =>
    if !str_empty purl then
      let r := get_or_fetch_user fp purl cache
      match r.result with
      | .error _ => .error r.cache
      | .ok (some user) =>
        .ok ((user.user_id,
              if truthy_opt user.username then user.username else frag_username), r.cache)
      | .ok none =>
        .ok ((extract_user_id_from_profile_url purl, frag_username), r.cache)
    else .ok ((none, frag_username), cache)
  | none => .ok ((none, frag_username), cache)

/-- Process one fragment (the body of `scrape_thread`'s inner loop):
resolve the author, build the post row, insert it into the post-author
index when its `post_id` is truthy, then build its interactions against
the updated index. -/
def process_post (fp : String → Except Unit (Option UserRec))
    (thread_id thread_url page_url : String) (st : TState) (p : Fragment) :
    Except (List (String × UserRec)) TState :=
  match resolve_author fp p.profile_url p.username st.cache with
  | .error c => .error c
  | .ok ((user_id, username), cache') =>
    let post_row : PostRow :=
      ⟨thread_id, thread_url, page_url, p.post_id, user_id, username,
       p.timestamp, p.text⟩
    let index' :=
      match p.post_id with
      | some pid => if !str_empty pid then (pid, ⟨user_id, username⟩) :: st.index else st.index
      | none => st.index
    let built := build_interactions_for_post thread_id post_row p.quotes p.mentions
      index' st.fresh
    .ok ⟨cache', st.posts ++ [post_row], st.inters ++ built.1, index', built.2⟩

/-- The per-page fragment loop of `scrape_thread`. -/
def posts_loop (fp : String → Except Unit (Option UserRec))
    (thread_id thread_url page_url : String) :
    List Fragment → TState → Except (List (String × UserRec)) TState
  | [], st => .ok st
  | p :: rest, st =>
    match process_post fp thread_id thread_url page_url st p with
    | .error c => .error c
    | .ok st' => posts_loop fp thread_id thread_url page_url rest st'

/-- The page loop of `scrape_thread`.  `page_oracle` combines the in-loop
`fetch(page_url)` with `parse_posts_from_page`. -/
def pages_loop (fp : String → Except Unit (Option UserRec))
    (page_oracle : String → Except Unit (List Fragment))
    (thread_id thread_url : String) :
    List String → TState → Except (List (String × UserRec)) TState
  | [], st => .ok st
  | page_url :: rest, st =>
    match page_oracle page_url with
    | .error _ => .error st.cache
    | .ok frags =>
      match posts_loop fp thread_id thread_url page_url frags st with
      | .error c => .error c
      | .ok st' => pages_loop fp page_oracle thread_id thread_url rest st'

/-- The `ThreadSummary` row (wall-clock timestamps outside the embedding). -/
structure ThreadRow where
  thread_id : String
  thread_url : String
  forum_url : Option String
deriving DecidableEq

/-- `scrape_thread(thread_url, user_cache, max_pages, forum_url)` with the
`get_thread_pages` walk abstracted into the input page-URL list.  On an
uncaught failure the triple is lost (`none`) but the cache mutations made
before the failure persist. -/
def scrape_thread (fp : String → Except Unit (Option UserRec))
    (page_oracle : String → Except Unit (List Fragment))
    (thread_url : String) (user_cache : List (String × UserRec))
    (page_urls : List String) (forum_url : Option String) :
    Option (List PostRow × List Interaction × ThreadRow) × List (String × UserRec) :=
  let thread_id := thread_id_from_url thread_url
  match pages_loop fp page_oracle thread_id thread_url page_urls
      ⟨user_cache, [], [], [], 0⟩ with
  | .error c => (none, c)
  | .ok st =>
    (some (st.posts, st.inters, ⟨thread_id, thread_url, forum_url⟩), st.cache)

/-- The per-thread loop of `scrape_single_forum` (`run_forum_scrape.py`
lines 83-94): a thread failure is caught, its outputs are dropped, and the
loop continues with the next thread over the updated cache.  `thread_pages`
abstracts `get_thread_pages` per thread URL. -/
def forum_loop (fp : String → Except Unit (Option UserRec))
    (page_oracle : String → Except Unit (List Fragment))
    (thread_pages : String → List String) (forum_url : Option String) :
    List String → List (String × UserRec) →
    List PostRow × List Interaction × List ThreadRow × List (String × UserRec)
  | [], cache => ([], [], [], cache)
  | t_url :: rest, cache =>
    let r := scrape_thread fp page_oracle t_url cache (thread_pages t_url) forum_url
    match r.1 with
    | none => forum_loop fp page_oracle thread_pages forum_url rest r.2
    | some (posts, inters, trow) =>
      let t := forum_loop fp page_oracle thread_pages forum_url rest r.2
      (posts ++ t.1, inters ++ t.2.1, trow :: t.2.2.1, t.2.2.2)

/-! ## Forum index walk (`get_thread_list`)

The markup of one index page is abstracted to the card hrefs (in document
order; `none` for a card without a usable link) and the `rel="next"` href.
The oracle combines `fetch` with this parse; the walk is given fuel since
the Python `while True` need not terminate without `max_pages`. -/

/-- One parsed forum-index page. -/
structure IndexPage where
  cards : List (Option String)
  next : Option String

/-- `thread_limit is not None and len(acc) >= thread_limit`. -/
def tl_reached (thread_limit : Option Nat) (len : Nat) : Bool :=
  match thread_limit with
  | some k => k ≤ len
  | none => false

/-- `max_pages is not None and page >= max_pages`. -/
def mp_reached (max_pages : Option Nat) (page : Nat) : Bool :=
  match max_pages with
  | some m => m ≤ page
  | none => false

/-- The card loop of one index page.  Returns the updated `seen` set and
accumulator, plus the stream of candidate absolute URLs examined (for
relating the result to discovery order). -/
def collect_cards (thread_limit : Option Nat) :
    List (Option String) → List String → List String →
    List String × List String × List String
  | [], seen, acc => (seen, acc, [])
  | c :: rest, seen, acc =>
    match c with
    | none => collect_cards thread_limit rest seen acc
    | some href =>
      if str_empty href then collect_cards thread_limit rest seen acc
      else
        let url := absolute_url href
        if url ∈ seen then
          let t := collect_cards thread_limit rest seen acc
          (t.1, t.2.1, url :: t.2.2)
        else
          let acc' := acc ++ [url]
          if tl_reached thread_limit acc'.length then (url :: seen, acc', [url])
          else
            let t := collect_cards thread_limit rest (url :: seen) acc'
            (t.1, t.2.1, url :: t.2.2)

/-- Result of the forum index walk: the accumulated thread URLs, the number
of index pages fetched, and the stream of candidate URLs examined. -/
structure WalkOut where
  threads : List String
  fetches : Nat
  stream : List String
deriving DecidableEq

/-- The `while True` loop of `get_thread_list`. -/
def thread_list_go (net : String → IndexPage)
    (thread_limit max_pages : Option Nat) :
    Nat → List String → List String → String → Nat → WalkOut
  | 0, _, acc, _, _ => ⟨acc, 0, []⟩
  | fuel + 1, seen, acc, page_url, page =>
    let pg := net page_url
    let c := collect_cards thread_limit pg.cards seen acc
    if tl_reached thread_limit c.2.1.length then ⟨c.2.1, 1, c.2.2⟩
    else if mp_reached max_pages page then ⟨c.2.1, 1, c.2.2⟩
    else
      match pg.next with
      | none => ⟨c.2.1, 1, c.2.2⟩
      | some next_href =>
        if str_empty next_href then ⟨c.2.1, 1, c.2.2⟩
        else
          let r := thread_list_go net thread_limit max_pages fuel c.1 c.2.1
            (absolute_url next_href) (page + 1)
          ⟨r.threads, r.fetches + 1, c.2.2 ++ r.stream⟩

/-- `get_thread_list(forum_url, max_pages, thread_limit)` (fuelled). -/
def get_thread_list (net : String → IndexPage) (forum_url : String)
    (max_pages thread_limit : Option Nat) (fuel : Nat) : WalkOut :=
  thread_list_go net thread_limit max_pages fuel [] [] forum_url 1

/-- Order-preserving de-duplicating fold: append each URL not yet present. -/
def dedup_append (acc : List String) (stream : List String) : List String :=
  stream.foldl (fun a u => if u ∈ a then a else a ++ [u]) acc

/-! # Claims -/

/-! ## C1: HTTP 429 handling in `fetch` -/

/-- The sleep list of an all-429 run, attempt by attempt. -/
theorem fetch_go_all_429 (net : Nat → HttpAnswer) (ra : Nat → Option String)
    (body : Nat → String) (h : ∀ k, net k = .reply 429 (ra k) (body k)) :
    ∀ remaining attempt, fetch_go net attempt remaining =
      (.exhausted, (List.range' attempt remaining).map fun k => retry_delay (ra k)) := by
  intro remaining
  induction remaining with
  | zero => intro attempt; simp [fetch_go]
  | succ n ih =>
    intro attempt
    rw [List.range'_succ]
    simp only [fetch_go, h attempt, List.map_cons]
    rw [ih (attempt + 1)]
    simp

/-- C1 (counterexample): the claim says a run of 429 responses alone never
causes `fetch` to escalate to a final failure, but with `max_retries = 3`
and every response being a bare 429, `fetch` sleeps 60 s three times and
then fails with the final `RuntimeError` (`FetchOutcome.exhausted`). -/
theorem c1_counterexample :
    fetch (fun _ => .reply 429 none "") 3 = (.exhausted, [60, 60, 60]) := by
  decide

/-- C1 (amended): on every 429 the gateway sleeps for the `Retry-After`
value when present and numeric (else the fixed 60 s fallback) and retries,
but the retry consumes the same attempt budget as network and 5xx errors:
a run of 429 responses alone makes `fetch` run exactly `max_retries`
attempts, sleeping `retry_delay` of each attempt's header, and then
escalate to the final failure (`RuntimeError`, `FetchOutcome.exhausted`). -/
theorem c1_amended (net : Nat → HttpAnswer) (max_retries : Nat)
    (ra : Nat → Option String) (body : Nat → String)
    (h : ∀ k, net k = .reply 429 (ra k) (body k)) :
    fetch net max_retries =
      (.exhausted, (List.range' 1 max_retries).map fun k => retry_delay (ra k)) :=
  fetch_go_all_429 net ra body h max_retries 1

/-- C1 (witness): with `max_retries = 2` and every answer a 429 carrying
`Retry-After: 7`, the amended theorem applies and yields two 7-second
sleeps before the final failure. -/
theorem c1_witness :
    (∀ k : Nat, (fun _ : Nat => HttpAnswer.reply 429 (some "7") "") k =
      .reply 429 ((fun _ : Nat => some "7") k) ((fun _ : Nat => "") k)) ∧
    fetch (fun _ => .reply 429 (some "7") "") 2 =
      (.exhausted, (List.range' 1 2).map fun k => retry_delay ((fun _ : Nat => some "7") k)) :=
  ⟨fun _ => rfl,
   c1_amended (fun _ => .reply 429 (some "7") "") 2 (fun _ => some "7") (fun _ => "")
     (fun _ => rfl)⟩

/-! ## C6: confidence and shape of built interactions -/

/-- Every record from the quote loop is a quote with confidence 1.0. -/
theorem build_quote_interactions_spec (thread_id : String) (rp : Option String)
    (su : Option String) (idx : List (String × AuthorEntry)) :
    ∀ quotes fresh, ∀ i ∈ (build_quote_interactions thread_id rp su idx quotes fresh).1,
      i.interaction_type = .quote ∧ i.confidence = 1.0 := by
  intro quotes
  induction quotes with
  | nil => intro fresh i hi; simp [build_quote_interactions] at hi
  | cons q rest ih =>
    intro fresh i hi
    simp only [build_quote_interactions, List.mem_cons] at hi
    rcases hi with rfl | hi
    · exact ⟨rfl, rfl⟩
    · exact ih (fresh + 1) i hi

/-- Every record from the mention loop is a mention with confidence 0.7 and
no target post. -/
theorem build_mention_interactions_spec (thread_id : String) (rp : Option String)
    (su : Option String) :
    ∀ mentions fresh, ∀ i ∈ (build_mention_interactions thread_id rp su mentions fresh).1,
      i.interaction_type = .mention ∧ i.confidence = 0.7 ∧ i.target_post_id = none := by
  intro mentions
  induction mentions with
  | nil => intro fresh i hi; simp [build_mention_interactions] at hi
  | cons m rest ih =>
    intro fresh i hi
    simp only [build_mention_interactions] at hi
    by_cases hskip :
        (!truthy_opt
            (if !truthy_opt m.user_id && !str_empty m.profile_url then
              extract_user_id_from_profile_url m.profile_url
            else m.user_id) &&
          !truthy_opt m.username) = true
    · rw [if_pos hskip] at hi
      exact ih fresh i hi
    · rw [if_neg hskip] at hi
      rcases List.mem_cons.mp hi with rfl | hi
      · exact ⟨rfl, rfl, rfl⟩
      · exact ih (fresh + 1) i hi

/-- C6: every interaction produced by `_build_interactions_for_post` has
confidence 1.0 when it is a quote and confidence 0.7 when it is a mention,
and mention-type records never carry a `target_post_id`. -/
theorem c6_confidence_bounds (thread_id : String) (post_row : PostRow)
    (quotes : List Quote) (mentions : List Mention)
    (idx : List (String × AuthorEntry)) (fresh : Nat) :
    ∀ i ∈ (build_interactions_for_post thread_id post_row quotes mentions idx fresh).1,
      (i.interaction_type = .quote → i.confidence = 1.0) ∧
      (i.interaction_type = .mention → i.confidence = 0.7 ∧ i.target_post_id = none) := by
  intro i hi
  unfold build_interactions_for_post at hi
  by_cases hpid : (!truthy_opt post_row.post_id) = true
  · rw [if_pos hpid] at hi
    simp at hi
  · rw [if_neg hpid] at hi
    simp only [List.mem_append] at hi
    rcases hi with hi | hi
    · obtain ⟨ht, hc⟩ := build_quote_interactions_spec thread_id post_row.post_id
        post_row.user_id idx quotes fresh i hi
      refine ⟨fun _ => hc, fun hm => ?_⟩
      rw [ht] at hm
      cases hm
    · obtain ⟨ht, hc, htp⟩ := build_mention_interactions_spec thread_id post_row.post_id
        post_row.user_id mentions _ i hi
      refine ⟨fun hq => ?_, fun _ => ⟨hc, htp⟩⟩
      rw [ht] at hq
      cases hq

/-- C6 (witness): a concrete builder run with one quote and one mention;
both produced records satisfy the confidence bounds. -/
theorem c6_witness :
    (⟨0, some "1", some "2", none, none, "t", .quote, 1.0⟩ : Interaction) ∈
      (build_interactions_for_post "t" ⟨"t", "u", "p", some "1", none, none, none, none⟩
        [⟨some "2", none⟩] [⟨"https://x/members/a.3/", some "a", some "3"⟩] [] 0).1 ∧
    ((⟨0, some "1", some "2", none, none, "t", .quote, 1.0⟩ : Interaction).interaction_type = .quote →
      (⟨0, some "1", some "2", none, none, "t", .quote, 1.0⟩ : Interaction).confidence = 1.0) ∧
    ((⟨0, some "1", some "2", none, none, "t", .quote, 1.0⟩ : Interaction).interaction_type = .mention →
      (⟨0, some "1", some "2", none, none, "t", .quote, 1.0⟩ : Interaction).confidence = 0.7 ∧
      (⟨0, some "1", some "2", none, none, "t", .quote, 1.0⟩ : Interaction).target_post_id = none) :=
  ⟨List.Mem.head _,
   c6_confidence_bounds "t" ⟨"t", "u", "p", some "1", none, none, none, none⟩
     [⟨some "2", none⟩] [⟨"https://x/members/a.3/", some "a", some "3"⟩] [] 0
     ⟨0, some "1", some "2", none, none, "t", .quote, 1.0⟩ (List.Mem.head _)⟩

/-! ## C7: thread id derivation -/

/-- A hex dump of the five-word state always has 40 characters. -/
theorem sha1_hex_length (msg : List Nat) : (sha1_hex msg).length = 40 := by
  simp [sha1_hex, to_hex8]

/-- C7: `_thread_id_from_url` is a pure function of the URL; both
trailing-slash variants of `/threads/foo.123` yield `"123"`, and any URL
whose (rstripped) path has no trailing numeric segment gets the
16-character truncated hash, hence a deterministic non-empty id that is
identical across repeated calls. -/
theorem c7_thread_id_stability :
    thread_id_from_url "https://x/threads/foo.123/" = "123" ∧
    thread_id_from_url "https://x/threads/foo.123" = "123" ∧
    ∀ url : String,
      re_dot_digits_end (rstrip_slash (url_path url)) = none →
      re_digits_end (rstrip_slash (url_path url)) = none →
      (thread_id_from_url url).length = 16 ∧
        thread_id_from_url url = thread_id_from_url url := by
  refine ⟨by decide, by decide, fun url h1 h2 => ⟨?_, rfl⟩⟩
  unfold thread_id_from_url
  simp only []
  rw [h1, h2]
  show (String.mk ((sha1_hex (utf8_bytes url.data)).take 16)).length = 16
  show ((sha1_hex (utf8_bytes url.data)).take 16).length = 16
  rw [List.length_take, sha1_hex_length]
  decide

/-- C7 (witness): `"https://x/threads/foo"` has no trailing numeric
segment, so its id is the 16-character hash. -/
theorem c7_witness :
    re_dot_digits_end (rstrip_slash (url_path "https://x/threads/foo")) = none ∧
    re_digits_end (rstrip_slash (url_path "https://x/threads/foo")) = none ∧
    ((thread_id_from_url "https://x/threads/foo").length = 16 ∧
      thread_id_from_url "https://x/threads/foo" = thread_id_from_url "https://x/threads/foo") :=
  ⟨by decide, by decide,
   c7_thread_id_stability.2.2 "https://x/threads/foo" (by decide) (by decide)⟩

/-! ## C8: identity resolution without network -/

/-- When neither trailing-digit pattern matches, no user id is extracted. -/
theorem extract_user_id_none (profile_url : String)
    (h1 : re_pat_dot (url_path profile_url) = none)
    (h2 : re_pat_slash (url_path profile_url) = none) :
    extract_user_id_from_profile_url profile_url = none := by
  unfold extract_user_id_from_profile_url
  by_cases he : str_empty profile_url = true
  · rw [if_pos he]
  · rw [if_neg he]
    simp only []
    rw [h1, h2]

/-- A successful extraction implies the URL is nonempty. -/
theorem extract_user_id_nonempty (profile_url : String) (uid : String)
    (h : extract_user_id_from_profile_url profile_url = some uid) :
    str_empty profile_url = false := by
  by_cases he : str_empty profile_url = true
  · unfold extract_user_id_from_profile_url at h
    rw [if_pos he] at h
    cases h
  · simpa using he

/-- C8: `get_or_fetch_user` performs no network resolution and returns null
when neither id pattern matches the profile reference's path, and performs
no network resolution and returns the cached record on a cache hit. -/
theorem c8_no_network (fp : String → Except Unit (Option UserRec))
    (profile_url : String) (cache : List (String × UserRec)) :
    (re_pat_dot (url_path profile_url) = none →
      re_pat_slash (url_path profile_url) = none →
      get_or_fetch_user fp profile_url cache = ⟨.ok none, cache, 0⟩) ∧
    (∀ uid u, extract_user_id_from_profile_url profile_url = some uid →
      lookupA cache uid = some u →
      get_or_fetch_user fp profile_url cache = ⟨.ok (some u), cache, 0⟩) := by
  constructor
  · intro h1 h2
    unfold get_or_fetch_user
    by_cases he : str_empty profile_url = true
    · rw [if_pos he]
    · rw [if_neg he, extract_user_id_none profile_url h1 h2]
  · intro uid u hex hlook
    unfold get_or_fetch_user
    rw [if_neg (by simp [extract_user_id_nonempty profile_url uid hex]), hex]
    simp only []
    rw [hlook]

/-- C8 (witness): `"https://x/members/alice"` matches neither pattern and
resolves to null with zero fetches; `"https://x/members/bob.4/"` extracts
id 4, hits a cache holding it, and returns the cached record with zero
fetches. -/
theorem c8_witness :
    re_pat_dot (url_path "https://x/members/alice") = none ∧
    re_pat_slash (url_path "https://x/members/alice") = none ∧
    get_or_fetch_user (fun _ => .ok none) "https://x/members/alice" [] =
      ⟨.ok none, [], 0⟩ ∧
    extract_user_id_from_profile_url "https://x/members/bob.4/" = some "4" ∧
    lookupA [("4",
      (⟨some "4", some "bob", "https://x/members/bob.4/", none, none, none, none, none,
        none, none, none, none, none, none, none, none, none, none⟩ : UserRec))] "4" =
      some ⟨some "4", some "bob", "https://x/members/bob.4/", none, none, none, none, none,
        none, none, none, none, none, none, none, none, none, none⟩ ∧
    get_or_fetch_user (fun _ => .ok none) "https://x/members/bob.4/"
      [("4", ⟨some "4", some "bob", "https://x/members/bob.4/", none, none, none, none, none,
        none, none, none, none, none, none, none, none, none, none⟩)] =
      ⟨.ok (some ⟨some "4", some "bob", "https://x/members/bob.4/", none, none, none, none, none,
        none, none, none, none, none, none, none, none, none, none⟩),
       [("4", ⟨some "4", some "bob", "https://x/members/bob.4/", none, none, none, none, none,
        none, none, none, none, none, none, none, none, none, none⟩)], 0⟩ :=
  ⟨by decide, by decide,
   (c8_no_network (fun _ => .ok none) "https://x/members/alice" []).1 (by decide) (by decide),
   by decide, by decide,
   (c8_no_network (fun _ => .ok none) "https://x/members/bob.4/"
     [("4", ⟨some "4", some "bob", "https://x/members/bob.4/", none, none, none, none, none,
       none, none, none, none, none, none, none, none, none, none⟩)]).2 "4"
     ⟨some "4", some "bob", "https://x/members/bob.4/", none, none, none, none, none,
       none, none, none, none, none, none, none, none, none, none⟩ (by decide) (by decide)⟩

/-! ## C5: idempotent identity cache -/

/-- When the cache already holds `uid`, every call of a run whose URLs all
extract to `uid` is a pure cache hit: no resolutions, cache unchanged,
every call returns the cached record. -/
theorem run_resolutions_hit (fp : String → Except Unit (Option UserRec)) (uid : String)
    (u : UserRec) :
    ∀ urls cache, lookupA cache uid = some u →
      (∀ url ∈ urls, extract_user_id_from_profile_url url = some uid) →
      run_resolutions fp urls cache =
        (List.replicate urls.length (.ok (some u)), cache, 0) := by
  intro urls
  induction urls with
  | nil => intro cache _ _; rfl
  | cons url rest ih =>
    intro cache hhit hex
    have hx := hex url (List.mem_cons_self url rest)
    have hcall : get_or_fetch_user fp url cache = ⟨.ok (some u), cache, 0⟩ := by
      unfold get_or_fetch_user
      rw [if_neg (by simp [extract_user_id_nonempty url uid hx]), hx]
      simp only []
      rw [hhit]
    simp only [run_resolutions, hcall]
    rw [ih cache hhit (fun x hxm => hex x (List.mem_cons_of_mem url hxm))]
    rfl

/-- C5: for a nonempty sequence of `get_or_fetch_user` calls whose profile
references all extract the same `user_id` not yet cached, and whose
resolutions succeed, exactly one underlying resolution occurs: the first
call fetches and caches one record, and every call of the run returns that
same record (structural equality). -/
theorem c5_identity_cache (fp : String → Except Unit (Option UserRec)) (uid : String)
    (urls : List String) (cache : List (String × UserRec))
    (h1 : ∀ url ∈ urls, extract_user_id_from_profile_url url = some uid)
    (h2 : ∀ url ∈ urls, ∃ r, fp url = .ok (some r))
    (h3 : lookupA cache uid = none)
    (h4 : urls ≠ []) :
    ∃ r, run_resolutions fp urls cache =
      (List.replicate urls.length (.ok (some r)), (uid, r) :: cache, 1) := by
  match urls, h4 with
  | url :: rest, _ =>
    obtain ⟨r, hr⟩ := h2 url (List.mem_cons_self url rest)
    have hx := h1 url (List.mem_cons_self url rest)
    refine ⟨r, ?_⟩
    have hcall : get_or_fetch_user fp url cache = ⟨.ok (some r), (uid, r) :: cache, 1⟩ := by
      unfold get_or_fetch_user
      rw [if_neg (by simp [extract_user_id_nonempty url uid hx]), hx]
      simp only []
      rw [h3, hr]
    simp only [run_resolutions, hcall]
    rw [run_resolutions_hit fp uid r rest ((uid, r) :: cache) (by simp [lookupA])
      (fun x hxm => h1 x (List.mem_cons_of_mem url hxm))]
    rfl

/-- A concrete user record shared by the witnesses. -/
def sample_user : UserRec :=
  ⟨some "5", some "ann", "https://x/members/a.5/", none, none, none, none, none,
   none, none, none, none, none, none, none, none, none, none⟩

/-- C5 (witness): two distinct profile references both extracting user id
5, resolved against a constant oracle: one resolution happens, both calls
return the same record. -/
theorem c5_witness :
    (∀ url ∈ ["https://x/members/a.5/", "https://x/members/b.5"],
      extract_user_id_from_profile_url url = some "5") ∧
    (∀ url ∈ ["https://x/members/a.5/", "https://x/members/b.5"],
      ∃ r, (fun _ : String => (.ok (some sample_user) : Except Unit (Option UserRec))) url =
        .ok (some r)) ∧
    lookupA ([] : List (String × UserRec)) "5" = none ∧
    (["https://x/members/a.5/", "https://x/members/b.5"] : List String) ≠ [] ∧
    ∃ r, run_resolutions (fun _ => .ok (some sample_user))
        ["https://x/members/a.5/", "https://x/members/b.5"] [] =
      (List.replicate 2 (.ok (some r)), [("5", r)], 1) :=
  ⟨by decide, fun _ _ => ⟨sample_user, rfl⟩, rfl, by simp,
   c5_identity_cache (fun _ => .ok (some sample_user)) "5"
     ["https://x/members/a.5/", "https://x/members/b.5"] [] (by decide)
     (fun _ _ => ⟨sample_user, rfl⟩) rfl (by simp)⟩

/-! ## C10: mention extraction -/

/-- Provenance of one emitted mention: the qualifying link and the fields
derived from it. -/
def mention_from (links : List ALink) (m : Mention) : Prop :=
  ∃ l ∈ links, ∃ href, l.href = some href ∧ str_empty href = false ∧
    has_sub href "/members/" = true ∧
    (truthy_opt l.data_user_id = true ∨
      ∃ c ∈ l.classes, leads_with "username".data c.data = true) ∧
    m = ⟨absolute_url href, if str_empty l.text then none else some l.text,
         extract_user_id_from_profile_url (absolute_url href)⟩

/-- The mention loop never repeats a `(profile_url, username)` key, avoids
the keys already seen, and emits only from qualifying member links. -/
theorem extract_mentions_go_spec :
    ∀ (links : List ALink) (seen : List (String × Option String)),
      (((extract_mentions_go links seen).map mention_key).Nodup ∧
        ∀ m ∈ extract_mentions_go links seen, mention_key m ∉ seen) ∧
      ∀ m ∈ extract_mentions_go links seen, mention_from links m := by
  intro links
  induction links with
  | nil =>
    intro seen
    exact ⟨⟨List.nodup_nil, by intro m hm; cases hm⟩, by intro m hm; cases hm⟩
  | cons l rest ih =>
    intro seen
    have weaken : ∀ m, mention_from rest m → mention_from (l :: rest) m := by
      intro m hm
      obtain ⟨l', hl', rest'⟩ := hm
      exact ⟨l', List.mem_cons_of_mem l hl', rest'⟩
    have skip :
        extract_mentions_go (l :: rest) seen = extract_mentions_go rest seen →
        (((extract_mentions_go (l :: rest) seen).map mention_key).Nodup ∧
          ∀ m ∈ extract_mentions_go (l :: rest) seen, mention_key m ∉ seen) ∧
        ∀ m ∈ extract_mentions_go (l :: rest) seen, mention_from (l :: rest) m := by
      intro he
      rw [he]
      exact ⟨(ih seen).1, fun m hm => weaken m ((ih seen).2 m hm)⟩
    cases hl : l.href with
    | none => exact skip (by rw [extract_mentions_go, hl])
    | some href =>
      by_cases h1 : str_empty href = true
      · exact skip (by rw [extract_mentions_go, hl]; simp only [h1, if_pos])
      · by_cases h2 : has_sub href "/members/" = true
        · by_cases h3 : (truthy_opt l.data_user_id ||
              l.classes.any fun cls => leads_with "username".data cls.data) = true
          · by_cases h4 :
                (absolute_url href, if str_empty l.text then none else some l.text) ∈ seen
            · refine skip ?_
              rw [extract_mentions_go, hl]
              simp only [h1, h2, h3, h4]
              simp
            · have hunf : extract_mentions_go (l :: rest) seen =
                  (⟨absolute_url href, if str_empty l.text then none else some l.text,
                    extract_user_id_from_profile_url (absolute_url href)⟩ : Mention) ::
                  extract_mentions_go rest
                    ((absolute_url href, if str_empty l.text then none else some l.text) :: seen) := by
                rw [extract_mentions_go, hl]
                simp only [h1, h2, h3, h4]
                simp
              rw [hunf]
              obtain ⟨⟨ihnd, ihseen⟩, ihfrom⟩ :=
                ih ((absolute_url href, if str_empty l.text then none else some l.text) :: seen)
              refine ⟨⟨?_, ?_⟩, ?_⟩
              · rw [List.map_cons]
                refine List.Nodup.cons ?_ ihnd
                intro hmem
                obtain ⟨m, hm, hkey⟩ := List.mem_map.mp hmem
                exact (ihseen m hm) (by rw [hkey]; exact List.mem_cons_self _ _)
              · intro m hm
                rcases List.mem_cons.mp hm with rfl | hm
                · exact h4
                · intro hin
                  exact (ihseen m hm) (List.mem_cons_of_mem _ hin)
              · intro m hm
                rcases List.mem_cons.mp hm with rfl | hm
                · refine ⟨l, List.mem_cons_self l rest, href, hl, by simpa using h1, h2, ?_, rfl⟩
                  rcases Bool.or_eq_true _ _ |>.mp h3 with hdu | hany
                  · exact Or.inl hdu
                  · exact Or.inr (by simpa using List.any_eq_true.mp hany)
                · exact weaken m (ihfrom m hm)
          · refine skip ?_
            rw [extract_mentions_go, hl]
            simp only [h1, h2, h3]
            simp
        · refine skip ?_
          rw [extract_mentions_go, hl]
          simp only [h1, h2]
          simp

/-- C10: per post body, the extracted mention list holds at most one entry
per distinct `(absolute profile URL, username text)` pair, and every entry
comes from a link whose href contains `/members/` and which carries either
a truthy `data-user-id` attribute or a `username`-prefixed class. -/
theorem c10_mention_dedup (body_el : Option (List ALink)) :
    ((extract_mentions body_el).map mention_key).Nodup ∧
    ∀ m ∈ extract_mentions body_el, mention_from (body_el.getD []) m := by
  cases body_el with
  | none =>
    exact ⟨List.nodup_nil, by intro m hm; cases hm⟩
  | some links =>
    exact ⟨(extract_mentions_go_spec links []).1.1, (extract_mentions_go_spec links []).2⟩

/-- C10 (witness): a body whose member link occurs twice produces a single
mention, and that mention's provenance holds. -/
theorem c10_witness :
    ((extract_mentions (some [⟨some "/members/x.5/", ["username"], none, "X"⟩,
        ⟨some "/members/x.5/", ["username"], none, "X"⟩])).map mention_key).Nodup ∧
    (⟨"https://www.personalitycafe.com/members/x.5/", some "X", some "5"⟩ : Mention) ∈
      extract_mentions (some [⟨some "/members/x.5/", ["username"], none, "X"⟩,
        ⟨some "/members/x.5/", ["username"], none, "X"⟩]) ∧
    mention_from ((some [⟨some "/members/x.5/", ["username"], none, "X"⟩,
        (⟨some "/members/x.5/", ["username"], none, "X"⟩ : ALink)]).getD [])
      ⟨"https://www.personalitycafe.com/members/x.5/", some "X", some "5"⟩ :=
  ⟨(c10_mention_dedup (some [⟨some "/members/x.5/", ["username"], none, "X"⟩,
      ⟨some "/members/x.5/", ["username"], none, "X"⟩])).1,
   by decide,
   (c10_mention_dedup (some [⟨some "/members/x.5/", ["username"], none, "X"⟩,
      ⟨some "/members/x.5/", ["username"], none, "X"⟩])).2
     ⟨"https://www.personalitycafe.com/members/x.5/", some "X", some "5"⟩ (by decide)⟩

/-! ## C4: interaction source constraint -/

/-- Every quote-loop record carries the builder's `replying_post_id`. -/
theorem build_quote_interactions_rp (thread_id : String) (rp : Option String)
    (su : Option String) (idx : List (String × AuthorEntry)) :
    ∀ quotes fresh, ∀ i ∈ (build_quote_interactions thread_id rp su idx quotes fresh).1,
      i.replying_post_id = rp := by
  intro quotes
  induction quotes with
  | nil => intro fresh i hi; cases hi
  | cons q rest ih =>
    intro fresh i hi
    rcases List.mem_cons.mp hi with rfl | hi
    · rfl
    · exact ih (fresh + 1) i hi

/-- Every mention-loop record carries the builder's `replying_post_id`. -/
theorem build_mention_interactions_rp (thread_id : String) (rp : Option String)
    (su : Option String) :
    ∀ mentions fresh, ∀ i ∈ (build_mention_interactions thread_id rp su mentions fresh).1,
      i.replying_post_id = rp := by
  intro mentions
  induction mentions with
  | nil => intro fresh i hi; cases hi
  | cons m rest ih =>
    intro fresh i hi
    simp only [build_mention_interactions] at hi
    by_cases hskip :
        (!truthy_opt
            (if !truthy_opt m.user_id && !str_empty m.profile_url then
              extract_user_id_from_profile_url m.profile_url
            else m.user_id) &&
          !truthy_opt m.username) = true
    · rw [if_pos hskip] at hi
      exact ih fresh i hi
    · rw [if_neg hskip] at hi
      rcases List.mem_cons.mp hi with rfl | hi
      · rfl
      · exact ih (fresh + 1) i hi

/-- Every built interaction has the post row's `post_id` as
`replying_post_id`, and that `post_id` is truthy. -/
theorem build_interactions_replying (thread_id : String) (post_row : PostRow)
    (quotes : List Quote) (mentions : List Mention)
    (idx : List (String × AuthorEntry)) (fresh : Nat) :
    ∀ i ∈ (build_interactions_for_post thread_id post_row quotes mentions idx fresh).1,
      i.replying_post_id = post_row.post_id ∧ truthy_opt post_row.post_id = true := by
  intro i hi
  unfold build_interactions_for_post at hi
  by_cases hpid : (!truthy_opt post_row.post_id) = true
  · rw [if_pos hpid] at hi
    cases hi
  · rw [if_neg hpid] at hi
    have htr : truthy_opt post_row.post_id = true := by
      simpa using hpid
    rcases List.mem_append.mp hi with hi | hi
    · exact ⟨build_quote_interactions_rp thread_id post_row.post_id post_row.user_id
        idx quotes fresh i hi, htr⟩
    · exact ⟨build_mention_interactions_rp thread_id post_row.post_id post_row.user_id
        mentions _ i hi, htr⟩

/-- A fragment with no `post_id` generates no interactions. -/
theorem build_interactions_no_post_id (thread_id : String) (post_row : PostRow)
    (quotes : List Quote) (mentions : List Mention)
    (idx : List (String × AuthorEntry)) (fresh : Nat)
    (h : post_row.post_id = none) :
    (build_interactions_for_post thread_id post_row quotes mentions idx fresh).1 = [] := by
  unfold build_interactions_for_post
  rw [h]
  rfl

/-- Successful fragment processing appends one row built from the fragment
and appends only interactions whose `replying_post_id` is that row's truthy
`post_id`. -/
theorem process_post_shape (fp : String → Except Unit (Option UserRec))
    (thread_id thread_url page_url : String) (st : TState) (p : Fragment)
    (st' : TState)
    (h : process_post fp thread_id thread_url page_url st p = .ok st') :
    ∃ row built, st'.posts = st.posts ++ [row] ∧ st'.inters = st.inters ++ built ∧
      row.post_id = p.post_id ∧ st'.index = (match p.post_id with
        | some pid => if !str_empty pid then (pid, ⟨row.user_id, row.username⟩) :: st.index
          else st.index
        | none => st.index) ∧
      built = (build_interactions_for_post thread_id row p.quotes p.mentions
        st'.index st.fresh).1 ∧
      ∀ i ∈ built, i.replying_post_id = row.post_id ∧ truthy_opt row.post_id = true := by
  unfold process_post at h
  split at h
  · cases h
  · rename_i user_id username cache' heq
    injection h with h
    subst h
    refine ⟨⟨thread_id, thread_url, page_url, p.post_id, user_id, username,
      p.timestamp, p.text⟩, _, rfl, rfl, rfl, rfl, rfl, ?_⟩
    intro i hi
    exact build_interactions_replying thread_id _ p.quotes p.mentions _ st.fresh i hi

/-- The run-level invariant of C4: every interaction so far points back at
a produced post row with a truthy `post_id`. -/
def inv_c4 (st : TState) : Prop :=
  ∀ i ∈ st.inters, ∃ p ∈ st.posts, i.replying_post_id = p.post_id ∧
    truthy_opt p.post_id = true

/-- `posts_loop` only appends posts and preserves the C4 invariant. -/
theorem posts_loop_inv (fp : String → Except Unit (Option UserRec))
    (thread_id thread_url page_url : String) :
    ∀ (frags : List Fragment) (st st' : TState),
      posts_loop fp thread_id thread_url page_url frags st = .ok st' →
      (∀ q ∈ st.posts, q ∈ st'.posts) ∧ (inv_c4 st → inv_c4 st') := by
  intro frags
  induction frags with
  | nil =>
    intro st st' h
    injection h with h
    subst h
    exact ⟨fun q hq => hq, fun hv => hv⟩
  | cons p rest ih =>
    intro st st' h
    unfold posts_loop at h
    split at h
    · cases h
    · rename_i st₁ hstep
      obtain ⟨hmono, hinv⟩ := ih st₁ st' h
      obtain ⟨row, built, hposts, hinters, _, _, _, hbuilt⟩ :=
        process_post_shape fp thread_id thread_url page_url st p st₁ hstep
      refine ⟨fun q hq => hmono q (by rw [hposts]; exact List.mem_append_left _ hq), ?_⟩
      intro hv
      refine hinv ?_
      intro i hi
      rw [hinters] at hi
      rcases List.mem_append.mp hi with hi | hi
      · obtain ⟨q, hq, hrest⟩ := hv i hi
        exact ⟨q, by rw [hposts]; exact List.mem_append_left _ hq, hrest⟩
      · obtain ⟨hrp, htr⟩ := hbuilt i hi
        exact ⟨row, by rw [hposts]; exact List.mem_append_right _ (List.mem_cons_self _ _),
          by rw [hrp], htr⟩

/-- `pages_loop` only appends posts and preserves the C4 invariant. -/
theorem pages_loop_inv (fp : String → Except Unit (Option UserRec))
    (page_oracle : String → Except Unit (List Fragment))
    (thread_id thread_url : String) :
    ∀ (page_urls : List String) (st st' : TState),
      pages_loop fp page_oracle thread_id thread_url page_urls st = .ok st' →
      (∀ q ∈ st.posts, q ∈ st'.posts) ∧ (inv_c4 st → inv_c4 st') := by
  intro page_urls
  induction page_urls with
  | nil =>
    intro st st' h
    injection h with h
    subst h
    exact ⟨fun q hq => hq, fun hv => hv⟩
  | cons page_url rest ih =>
    intro st st' h
    unfold pages_loop at h
    split at h
    · cases h
    · rename_i frags hpage
      split at h
      · cases h
      · rename_i st₁ hloop
        obtain ⟨hmono₁, hinv₁⟩ :=
          posts_loop_inv fp thread_id thread_url page_url frags st st₁ hloop
        obtain ⟨hmono₂, hinv₂⟩ := ih st₁ st' h
        exact ⟨fun q hq => hmono₂ q (hmono₁ q hq), fun hv => hinv₂ (hinv₁ hv)⟩

/-- C4: in a completed `scrape_thread` run, every interaction's
`replying_post_id` is the `post_id` of some post record of the same run
(and that `post_id` is truthy); and the builder emits nothing for a
fragment whose `post_id` is absent. -/
theorem c4_interaction_source (fp : String → Except Unit (Option UserRec))
    (page_oracle : String → Except Unit (List Fragment))
    (thread_url : String) (user_cache : List (String × UserRec))
    (page_urls : List String) (forum_url : Option String)
    (posts : List PostRow) (inters : List Interaction) (trow : ThreadRow)
    (cache' : List (String × UserRec))
    (h : scrape_thread fp page_oracle thread_url user_cache page_urls forum_url =
      (some (posts, inters, trow), cache')) :
    (∀ i ∈ inters, ∃ p ∈ posts, i.replying_post_id = p.post_id ∧
      truthy_opt p.post_id = true) ∧
    ∀ (tid : String) (prow : PostRow) (q : List Quote) (m : List Mention)
      (idx : List (String × AuthorEntry)) (f : Nat), prow.post_id = none →
      (build_interactions_for_post tid prow q m idx f).1 = [] := by
  refine ⟨?_, fun tid prow q m idx f hn => build_interactions_no_post_id tid prow q m idx f hn⟩
  simp only [scrape_thread] at h
  split at h
  · cases h
  · rename_i st hrun
    injection h with h1 h2
    have h1' := Option.some.inj h1
    injection h1' with hposts h1''
    injection h1'' with hinters htrow
    have hinv := (pages_loop_inv fp page_oracle (thread_id_from_url thread_url)
      thread_url page_urls ⟨user_cache, [], [], [], 0⟩ st hrun).2
      (by intro i hi; cases hi)
    rw [← hposts, ← hinters]
    exact hinv

/-! ## Concrete scenario shared by the run-level witnesses -/

/-- A concrete resolved author record. -/
def w_user : UserRec :=
  ⟨some "7", some "alice", "https://www.personalitycafe.com/members/alice.7/",
   none, none, none, none, none, none, none, none, none,
   none, none, none, none, none, none⟩

/-- A concrete fragment whose single quote targets the fragment's own
`post_id` (a self-quote). -/
def w_frag : Fragment :=
  ⟨some "10", some "alice", some "https://www.personalitycafe.com/members/alice.7/",
   none, some "hi", [⟨some "10", some "alice"⟩], []⟩

/-- A profile oracle always resolving to `w_user`. -/
def w_fp : String → Except Unit (Option UserRec) := fun _ => .ok (some w_user)

/-- A page oracle always yielding the single fragment `w_frag`. -/
def w_po : String → Except Unit (List Fragment) := fun _ => .ok [w_frag]

/-- The post row the scenario produces. -/
def w_row : PostRow :=
  ⟨"9", "https://x/threads/t.9/", "https://x/threads/t.9/", some "10", some "7",
   some "alice", none, some "hi"⟩

/-- The interaction the scenario produces: the self-quote, resolved to the
post's own author. -/
def w_inter : Interaction :=
  ⟨0, some "10", some "10", some "7", some "7", "9", .quote, 1.0⟩

/-- C4 (witness): the concrete one-page run succeeds and every interaction
of the run points back at a produced post. -/
theorem c4_witness :
    scrape_thread w_fp w_po "https://x/threads/t.9/" [] ["https://x/threads/t.9/"] none =
      (some ([w_row], [w_inter], ⟨"9", "https://x/threads/t.9/", none⟩), [("7", w_user)]) ∧
    ((∀ i ∈ [w_inter], ∃ p ∈ [w_row], i.replying_post_id = p.post_id ∧
        truthy_opt p.post_id = true) ∧
      ∀ (tid : String) (prow : PostRow) (q : List Quote) (m : List Mention)
        (idx : List (String × AuthorEntry)) (f : Nat), prow.post_id = none →
        (build_interactions_for_post tid prow q m idx f).1 = []) :=
  ⟨rfl,
   c4_interaction_source w_fp w_po "https://x/threads/t.9/" [] ["https://x/threads/t.9/"]
     none [w_row] [w_inter] ⟨"9", "https://x/threads/t.9/", none⟩ [("7", w_user)] rfl⟩

/-! ## C3: post-author index insertion order and self-quotes -/

/-- C3 (counterexample): the claim says that a post is indexed only after
its interactions are built, so a quote whose `target_post_id` equals the
quoting post's own `post_id` must resolve to a null `target_user_id`.  In
this concrete run the self-quote of post 10 resolves to the post's own
author (user id 7), because `scrape_thread` inserts the post into
`post_author_index` before calling the interaction builder. -/
theorem c3_counterexample :
    scrape_thread w_fp w_po "https://x/threads/t.9/" [] ["https://x/threads/t.9/"] none =
      (some ([w_row], [w_inter], ⟨"9", "https://x/threads/t.9/", none⟩), [("7", w_user)]) ∧
    w_inter.target_post_id = w_frag.post_id ∧
    w_inter.replying_post_id = w_frag.post_id ∧
    w_inter.target_user_id = some "7" :=
  ⟨rfl, rfl, rfl, rfl⟩

/-- Every quote-loop record whose target resolved to a user id got it from
the index entry of its (truthy) target post id. -/
theorem build_quote_interactions_target (thread_id : String) (rp : Option String)
    (su : Option String) (idx : List (String × AuthorEntry)) :
    ∀ quotes fresh, ∀ i ∈ (build_quote_interactions thread_id rp su idx quotes fresh).1,
      ∀ uid, i.target_user_id = some uid →
        ∃ tp entry, i.target_post_id = some tp ∧ lookupA idx tp = some entry ∧
          entry.user_id = some uid := by
  intro quotes
  induction quotes with
  | nil => intro fresh i hi; cases hi
  | cons q rest ih =>
    intro fresh i hi uid huid
    rcases List.mem_cons.mp hi with rfl | hi
    · have hres : quote_resolution idx q = some uid := huid
      unfold quote_resolution at hres
      cases htp : q.target_post_id with
      | none => simp only [htp] at hres; exact Option.noConfusion hres
      | some tp =>
        simp only [htp] at hres
        cases hemp : str_empty tp with
        | true => simp [hemp] at hres
        | false =>
          simp only [hemp, Bool.not_false, if_true] at hres
          cases hlook : lookupA idx tp with
          | none => simp only [hlook] at hres; exact Option.noConfusion hres
          | some entry =>
            simp only [hlook] at hres
            exact ⟨tp, entry, rfl, hlook, hres⟩
    · exact ih (fresh + 1) i hi uid huid

/-- Each quote in the builder's input yields a record in the quote loop's
output with the resolved target. -/
theorem build_quote_interactions_mem (thread_id : String) (rp : Option String)
    (su : Option String) (idx : List (String × AuthorEntry)) :
    ∀ quotes fresh, ∀ q ∈ quotes,
      ∃ i ∈ (build_quote_interactions thread_id rp su idx quotes fresh).1,
        i.interaction_type = .quote ∧ i.replying_post_id = rp ∧
        i.target_post_id = q.target_post_id ∧
        i.target_user_id = quote_resolution idx q := by
  intro quotes
  induction quotes with
  | nil => intro fresh q hq; cases hq
  | cons q0 rest ih =>
    intro fresh q hq
    rcases List.mem_cons.mp hq with rfl | hq
    · exact ⟨_, List.mem_cons_self _ _, rfl, rfl, rfl, rfl⟩
    · obtain ⟨i, hi, hrest⟩ := ih (fresh + 1) q hq
      exact ⟨i, List.mem_cons_of_mem _ hi, hrest⟩

/-- C3 (amended): `scrape_thread` inserts each post into
`post_author_index` before building that post's interactions, so a quote's
non-null `target_user_id` always comes from the index entry of a post
at-or-before the quoting post — including the quoting post itself: a quote
whose `target_post_id` equals the quoting post's own (truthy) `post_id`
yields an interaction whose `target_user_id` is the quoting post's own
resolved author id, not null. -/
theorem c3_amended (fp : String → Except Unit (Option UserRec))
    (thread_id thread_url page_url : String) (st : TState) (p : Fragment)
    (st' : TState)
    (h : process_post fp thread_id thread_url page_url st p = .ok st') :
    (∀ i ∈ st'.inters, i ∉ st.inters → i.interaction_type = .quote →
      ∀ uid, i.target_user_id = some uid →
        ∃ tp entry, i.target_post_id = some tp ∧ lookupA st'.index tp = some entry ∧
          entry.user_id = some uid) ∧
    (∀ pid, p.post_id = some pid → str_empty pid = false →
      ∀ q ∈ p.quotes, q.target_post_id = some pid →
        ∃ i ∈ st'.inters, ∃ row ∈ st'.posts, i.interaction_type = .quote ∧
          i.target_post_id = some pid ∧ i.replying_post_id = some pid ∧
          row.post_id = some pid ∧ i.target_user_id = row.user_id) := by
  obtain ⟨row, built, hposts, hinters, hrowpid, hindex, hbuilt, _⟩ :=
    process_post_shape fp thread_id thread_url page_url st p st' h
  have hlook_self : ∀ pid, p.post_id = some pid → str_empty pid = false →
      lookupA st'.index pid = some ⟨row.user_id, row.username⟩ := by
    intro pid hpid hpe
    rw [hindex, hpid]
    simp only [hpe]
    simp [lookupA]
  constructor
  · intro i hi hnew htype uid huid
    rw [hinters] at hi
    rcases List.mem_append.mp hi with hi | hi
    · exact absurd hi hnew
    · rw [hbuilt] at hi
      unfold build_interactions_for_post at hi
      by_cases hpid : (!truthy_opt row.post_id) = true
      · rw [if_pos hpid] at hi; cases hi
      · rw [if_neg hpid] at hi
        rcases List.mem_append.mp hi with hi | hi
        · exact build_quote_interactions_target thread_id row.post_id row.user_id
            st'.index p.quotes st.fresh i hi uid huid
        · obtain ⟨hm, _, _⟩ := build_mention_interactions_spec thread_id row.post_id
            row.user_id p.mentions _ i hi
          rw [hm] at htype
          cases htype
  · intro pid hpid hpe q hq htq
    have htr : truthy_opt row.post_id = true := by
      rw [hrowpid, hpid]
      simpa [truthy_opt] using hpe
    obtain ⟨i, hi, htype, hrp, htp, hres⟩ := build_quote_interactions_mem thread_id
      row.post_id row.user_id st'.index p.quotes st.fresh q hq
    have hresolved : quote_resolution st'.index q = row.user_id := by
      unfold quote_resolution
      rw [htq]
      simp only [hpe]
      rw [hlook_self pid hpid hpe]
      rfl
    refine ⟨i, ?_, row, ?_, htype, by rw [htp, htq], by rw [hrp, hrowpid, hpid], ?_, ?_⟩
    · rw [hinters, hbuilt]
      refine List.mem_append_right _ ?_
      unfold build_interactions_for_post
      rw [if_neg (by simp [htr])]
      exact List.mem_append_left _ hi
    · rw [hposts]
      exact List.mem_append_right _ (List.mem_cons_self _ _)
    · rw [hrowpid, hpid]
    · rw [hres, hresolved]

/-- C3 (witness): processing the concrete self-quoting fragment emits an
interaction whose target is the post's own id, resolved to its own author. -/
theorem c3_witness :
    process_post w_fp "9" "https://x/threads/t.9/" "https://x/threads/t.9/"
      ⟨[], [], [], [], 0⟩ w_frag =
      .ok ⟨[("7", w_user)], [w_row], [w_inter], [("10", ⟨some "7", some "alice"⟩)], 1⟩ ∧
    w_frag.post_id = some "10" ∧ str_empty "10" = false ∧
    (⟨some "10", some "alice"⟩ : Quote) ∈ w_frag.quotes ∧
    (⟨some "10", some "alice"⟩ : Quote).target_post_id = some "10" ∧
    ∃ i ∈ (⟨[("7", w_user)], [w_row], [w_inter], [("10", ⟨some "7", some "alice"⟩)], 1⟩ :
        TState).inters,
      ∃ row ∈ (⟨[("7", w_user)], [w_row], [w_inter], [("10", ⟨some "7", some "alice"⟩)], 1⟩ :
        TState).posts, i.interaction_type = .quote ∧
        i.target_post_id = some "10" ∧ i.replying_post_id = some "10" ∧
        row.post_id = some "10" ∧ i.target_user_id = row.user_id :=
  ⟨rfl, rfl, rfl, List.Mem.head _, rfl,
   (c3_amended w_fp "9" "https://x/threads/t.9/" "https://x/threads/t.9/"
     ⟨[], [], [], [], 0⟩ w_frag
     ⟨[("7", w_user)], [w_row], [w_inter], [("10", ⟨some "7", some "alice"⟩)], 1⟩ rfl).2
     "10" rfl rfl ⟨some "10", some "alice"⟩ (List.Mem.head _) rfl⟩

/-! ## C2: failure isolation -/

/-- A page oracle whose first page fails and whose second page works. -/
def w_po2 : String → Except Unit (List Fragment) :=
  fun u => if u = "p1" then .error () else .ok [w_frag]

/-- C2 (counterexample): the claim says a fetch failure for one page is
caught inside `scrape_thread` and processing continues with the remaining
pages.  In this concrete two-page thread the failure of page `p1` makes
`scrape_thread` itself fail: the run returns no posts at all, although
page `p2` would have produced one. -/
theorem c2_counterexample :
    scrape_thread w_fp w_po2 "https://x/threads/t.9/" [] ["p1", "p2"] none = (none, []) ∧
    w_po2 "p2" = .ok [w_frag] :=
  ⟨rfl, rfl⟩

/-- Merging an empty about side-map changes nothing. -/
theorem merge_empty_about (u : UserRec) : merge_user_details u empty_about = u :=
  rfl

/-- C2 (amended): a fetch failure while fetching one thread page (or the
tooltip tier of profile resolution) propagates out of `scrape_thread` and
aborts that whole thread; isolation happens one level up — the caller
(`scrape_single_forum`) catches the per-thread failure and continues with
the remaining threads over the cache state the failed thread left behind —
while within profile resolution only the about-page and profile-page
fetches are caught (the about enrichment failure is swallowed and the
record is built as if no side-map existed). -/
theorem c2_amended :
    (∀ (fp : String → Except Unit (Option UserRec))
       (po : String → Except Unit (List Fragment))
       (tp : String → List String) (fu : Option String) (t : String)
       (rest : List String) (cache : List (String × UserRec)),
      (scrape_thread fp po t cache (tp t) fu).1 = none →
      forum_loop fp po tp fu (t :: rest) cache =
        forum_loop fp po tp fu rest (scrape_thread fp po t cache (tp t) fu).2) ∧
    (∀ (net : String → Except Unit String) (pa : String → AboutData)
       (pp : String → Option UserRec) (pt : String → UserRec)
       (url : String) (uid : String) (html : String) (prof : UserRec),
      extract_user_id_from_profile_url url = some uid →
      net (rstrip_slash url ++ "/about") = .error () →
      net url = .ok html → pp html = some prof →
      fetch_user_profile net pa pp pt url = .ok (some prof)) := by
  constructor
  · intro fp po tp fu t rest cache h
    simp only [forum_loop, h]
  · intro net pa pp pt url uid html prof hex habout hprof hpp
    unfold fetch_user_profile
    rw [hex]
    simp only [habout, hprof, Option.some_bind, hpp]
    rw [merge_empty_about]

/-- C2 (witness): a concrete failing thread followed by a succeeding one:
the forum loop drops the failed thread and still processes the next one;
and a concrete about-tier failure leaves resolution intact. -/
theorem c2_witness :
    (scrape_thread w_fp w_po2 "https://x/threads/t.9/" [] ["p1", "p2"] none).1 = none ∧
    forum_loop w_fp w_po2 (fun _ => ["p1", "p2"]) none
        ["https://x/threads/t.9/", "https://x/threads/u.8/"] [] =
      forum_loop w_fp w_po2 (fun _ => ["p1", "p2"]) none ["https://x/threads/u.8/"]
        (scrape_thread w_fp w_po2 "https://x/threads/t.9/" [] ["p1", "p2"] none).2 ∧
    extract_user_id_from_profile_url "https://x/members/alice.7/" = some "7" ∧
    (fun u => if u = "https://x/members/alice.7/about" then (.error () : Except Unit String)
      else .ok "H") (rstrip_slash "https://x/members/alice.7/" ++ "/about") = .error () ∧
    (fun u => if u = "https://x/members/alice.7/about" then (.error () : Except Unit String)
      else .ok "H") "https://x/members/alice.7/" = .ok "H" ∧
    (fun _ : String => some w_user) "H" = some w_user ∧
    fetch_user_profile
      (fun u => if u = "https://x/members/alice.7/about" then (.error () : Except Unit String)
        else .ok "H")
      (fun _ => empty_about) (fun _ => some w_user) (fun _ => w_user)
      "https://x/members/alice.7/" = .ok (some w_user) :=
  ⟨rfl,
   c2_amended.1 w_fp w_po2 (fun _ => ["p1", "p2"]) none "https://x/threads/t.9/"
     ["https://x/threads/u.8/"] [] rfl,
   by decide, by decide, by decide, rfl,
   c2_amended.2
     (fun u => if u = "https://x/members/alice.7/about" then (.error () : Except Unit String)
       else .ok "H")
     (fun _ => empty_about) (fun _ => some w_user) (fun _ => w_user)
     "https://x/members/alice.7/" "7" "H" w_user (by decide) (by decide) (by decide) rfl⟩

/-! ## C9: forum index walk -/

/-- `dedup_append` over a concatenation factors through its first part. -/
theorem dedup_append_append (acc s t : List String) :
    dedup_append acc (s ++ t) = dedup_append (dedup_append acc s) t :=
  List.foldl_append _ _ _ _

/-- `dedup_append` preserves `Nodup`. -/
theorem dedup_append_nodup : ∀ (s acc : List String), acc.Nodup →
    (dedup_append acc s).Nodup := by
  intro s
  induction s with
  | nil => intro acc h; exact h
  | cons u rest ih =>
    intro acc h
    show (dedup_append (if u ∈ acc then acc else acc ++ [u]) rest).Nodup
    by_cases hm : u ∈ acc
    · rw [if_pos hm]; exact ih acc h
    · rw [if_neg hm]
      refine ih _ ?_
      rw [← List.concat_eq_append]
      exact List.Nodup.concat hm h

/-- The card loop returns the dedup-fold of the URLs it examined, and its
`seen` set stays extensionally equal to its accumulator. -/
theorem collect_cards_spec (tl : Option Nat) :
    ∀ (cards : List (Option String)) (seen acc : List String),
      (∀ u : String, u ∈ seen ↔ u ∈ acc) →
      (collect_cards tl cards seen acc).2.1 =
        dedup_append acc (collect_cards tl cards seen acc).2.2 ∧
      (∀ u : String, u ∈ (collect_cards tl cards seen acc).1 ↔
        u ∈ (collect_cards tl cards seen acc).2.1) := by
  intro cards
  induction cards with
  | nil => intro seen acc hiff; exact ⟨rfl, hiff⟩
  | cons c rest ih =>
    intro seen acc hiff
    cases c with
    | none => simpa only [collect_cards] using ih seen acc hiff
    | some href =>
      by_cases he : str_empty href = true
      · simpa only [collect_cards, he, if_true] using ih seen acc hiff
      · simp only [collect_cards, he, if_false]
        by_cases hm : absolute_url href ∈ seen
        · simp only [hm, if_true]
          obtain ⟨h1, h2⟩ := ih seen acc hiff
          constructor
          · show (collect_cards tl rest seen acc).2.1 =
              dedup_append (if absolute_url href ∈ acc then acc else acc ++ [absolute_url href])
                (collect_cards tl rest seen acc).2.2
            rw [if_pos ((hiff _).mp hm)]
            exact h1
          · exact h2
        · simp only [hm, if_false]
          have hnacc : absolute_url href ∉ acc := fun hc => hm ((hiff _).mpr hc)
          by_cases hr : tl_reached tl (acc ++ [absolute_url href]).length = true
          · simp only [hr, if_true]
            constructor
            · show acc ++ [absolute_url href] =
                dedup_append (if absolute_url href ∈ acc then acc else acc ++ [absolute_url href]) []
              rw [if_neg hnacc]
              rfl
            · intro u
              show u ∈ absolute_url href :: seen ↔ u ∈ acc ++ [absolute_url href]
              simp only [List.mem_cons, List.mem_append, List.mem_singleton, hiff u]
              tauto
          · simp only [hr, if_false]
            have hiff' : ∀ u : String, u ∈ absolute_url href :: seen ↔
                u ∈ acc ++ [absolute_url href] := by
              intro u
              simp only [List.mem_cons, List.mem_append, List.mem_singleton, hiff u]
              tauto
            obtain ⟨h1, h2⟩ := ih _ _ hiff'
            constructor
            · show (collect_cards tl rest _ _).2.1 =
                dedup_append (if absolute_url href ∈ acc then acc else acc ++ [absolute_url href])
                  (collect_cards tl rest _ _).2.2
              rw [if_neg hnacc]
              exact h1
            · exact h2

/-- When the limit is not yet reached, the card loop keeps the accumulator
within the limit. -/
theorem collect_cards_length (k : Nat) :
    ∀ (cards : List (Option String)) (seen acc : List String), acc.length < k →
      (collect_cards (some k) cards seen acc).2.1.length ≤ k := by
  intro cards
  induction cards with
  | nil => intro seen acc h; exact Nat.le_of_lt h
  | cons c rest ih =>
    intro seen acc h
    cases c with
    | none => simpa only [collect_cards] using ih seen acc h
    | some href =>
      by_cases he : str_empty href = true
      · simpa only [collect_cards, he, if_true] using ih seen acc h
      · simp only [collect_cards, he, if_false]
        by_cases hm : absolute_url href ∈ seen
        · simp only [hm, if_true]
          exact ih seen acc h
        · simp only [hm, if_false]
          by_cases hr : tl_reached (some k) (acc ++ [absolute_url href]).length = true
          · simp only [hr, if_true]
            simpa using h
          · simp only [hr, if_false]
            refine ih _ _ ?_
            have : ¬(k ≤ (acc ++ [absolute_url href]).length) := by
              simpa [tl_reached] using hr
            omega

/-- The walk's result is the order-preserving dedup of the URL stream it
examined. -/
theorem thread_list_go_dedup (net : String → IndexPage) (tl mp : Option Nat) :
    ∀ (fuel : Nat) (seen acc : List String) (url : String) (page : Nat),
      (∀ u : String, u ∈ seen ↔ u ∈ acc) →
      (thread_list_go net tl mp fuel seen acc url page).threads =
        dedup_append acc (thread_list_go net tl mp fuel seen acc url page).stream := by
  intro fuel
  induction fuel with
  | zero => intro seen acc url page _; rfl
  | succ fuel ih =>
    intro seen acc url page hiff
    obtain ⟨h1, h2⟩ := collect_cards_spec tl (net url).cards seen acc hiff
    simp only [thread_list_go]
    by_cases ht : tl_reached tl (collect_cards tl (net url).cards seen acc).2.1.length = true
    · simp only [ht, if_true]
      exact h1
    · simp only [ht, if_false]
      by_cases hp : mp_reached mp page = true
      · simp only [hp, if_true]
        exact h1
      · simp only [hp, if_false]
        cases hnext : (net url).next with
        | none => exact h1
        | some nh =>
          by_cases hne : str_empty nh = true
          · simp only [hne, if_true]
            exact h1
          · simp only [hne, if_false]
            show (thread_list_go net tl mp fuel _ _ _ _).threads =
              dedup_append acc ((collect_cards tl (net url).cards seen acc).2.2 ++
                (thread_list_go net tl mp fuel _ _ _ _).stream)
            rw [dedup_append_append, ← h1]
            exact ih _ _ _ _ h2

/-- With a positive thread limit the walk's result stays within the limit. -/
theorem thread_list_go_length (net : String → IndexPage) (mp : Option Nat) (k : Nat) :
    ∀ (fuel : Nat) (seen acc : List String) (url : String) (page : Nat),
      acc.length < k →
      (thread_list_go net (some k) mp fuel seen acc url page).threads.length ≤ k := by
  intro fuel
  induction fuel with
  | zero => intro seen acc url page h; exact Nat.le_of_lt h
  | succ fuel ih =>
    intro seen acc url page h
    have hcl := collect_cards_length k (net url).cards seen acc h
    simp only [thread_list_go]
    by_cases ht : tl_reached (some k)
        (collect_cards (some k) (net url).cards seen acc).2.1.length = true
    · simp only [ht, if_true]
      exact hcl
    · simp only [ht, if_false]
      have hlt : (collect_cards (some k) (net url).cards seen acc).2.1.length < k := by
        have : ¬(k ≤ (collect_cards (some k) (net url).cards seen acc).2.1.length) := by
          simpa [tl_reached] using ht
        omega
      by_cases hp : mp_reached mp page = true
      · simp only [hp, if_true]
        exact hcl
      · simp only [hp, if_false]
        cases hnext : (net url).next with
        | none => exact hcl
        | some nh =>
          by_cases hne : str_empty nh = true
          · simp only [hne, if_true]
            exact hcl
          · simp only [hne, if_false]
            exact ih _ _ _ _ hlt

/-- With `max_pages = m` the walk issues at most `m + 1 - page` further
fetches. -/
theorem thread_list_go_fetches (net : String → IndexPage) (tl : Option Nat) (m : Nat) :
    ∀ (fuel : Nat) (seen acc : List String) (url : String) (page : Nat),
      page ≤ m →
      (thread_list_go net tl (some m) fuel seen acc url page).fetches ≤ m + 1 - page := by
  intro fuel
  induction fuel with
  | zero => intro seen acc url page h; exact Nat.zero_le _
  | succ fuel ih =>
    intro seen acc url page h
    simp only [thread_list_go]
    by_cases ht : tl_reached tl (collect_cards tl (net url).cards seen acc).2.1.length = true
    · simp only [ht, if_true]
      show 1 ≤ m + 1 - page
      omega
    · simp only [ht, if_false]
      by_cases hp : mp_reached (some m) page = true
      · simp only [hp, if_true]
        show 1 ≤ m + 1 - page
        omega
      · have hplt : page < m := by
          have : ¬(m ≤ page) := by simpa [mp_reached] using hp
          omega
        simp only [hp, if_false]
        cases hnext : (net url).next with
        | none =>
          show 1 ≤ m + 1 - page
          omega
        | some nh =>
          by_cases hne : str_empty nh = true
          · simp only [hne, if_true]
            show 1 ≤ m + 1 - page
            omega
          · simp only [hne, if_false]
            have := ih (collect_cards tl (net url).cards seen acc).1
              (collect_cards tl (net url).cards seen acc).2.1 (absolute_url nh)
              (page + 1) hplt
            show (thread_list_go net tl (some m) fuel _ _ _ _).fetches + 1 ≤ m + 1 - page
            omega

/-- With `max_pages = m`, fuel `m + 1 - page` is enough: larger fuel does
not change the walk (the loop self-terminates at the page cap). -/
theorem thread_list_go_fuel (net : String → IndexPage) (tl : Option Nat) (m : Nat) :
    ∀ (fuel : Nat) (seen acc : List String) (url : String) (page : Nat),
      page ≤ m → m + 1 - page ≤ fuel →
      thread_list_go net tl (some m) fuel seen acc url page =
        thread_list_go net tl (some m) (m + 1 - page) seen acc url page := by
  intro fuel
  induction fuel with
  | zero => intro seen acc url page h hf; omega
  | succ fuel ih =>
    intro seen acc url page h hf
    have hd : m + 1 - page = (m - page) + 1 := by omega
    rw [hd]
    simp only [thread_list_go]
    by_cases ht : tl_reached tl (collect_cards tl (net url).cards seen acc).2.1.length = true
    · simp only [ht, if_true]
    · simp only [ht, if_false]
      by_cases hp : mp_reached (some m) page = true
      · simp only [hp, if_true]
      · have hplt : page < m := by
          have : ¬(m ≤ page) := by simpa [mp_reached] using hp
          omega
        simp only [hp, if_false]
        cases hnext : (net url).next with
        | none => rfl
        | some nh =>
          by_cases hne : str_empty nh = true
          · simp only [hne, if_true]
          · simp only [hne, if_false]
            have hrec := ih (collect_cards tl (net url).cards seen acc).1
              (collect_cards tl (net url).cards seen acc).2.1 (absolute_url nh)
              (page + 1) hplt (by omega)
            have hd' : m + 1 - (page + 1) = m - page := by omega
            rw [hd'] at hrec
            rw [hrec]

/-- C9 (counterexample): the claim bounds the result length by
`thread_limit` whenever the limit is set, but with `thread_limit = 0` the
walk still collects one thread, because the source checks the limit only
after appending. -/
theorem c9_counterexample :
    (get_thread_list (fun _ => ⟨[some "/threads/a.1/"], none⟩) "https://x/f/"
      (some 3) (some 0) 5).threads =
      ["https://www.personalitycafe.com/threads/a.1/"] ∧
    ¬((get_thread_list (fun _ => ⟨[some "/threads/a.1/"], none⟩) "https://x/f/"
      (some 3) (some 0) 5).threads.length ≤ 0) := by
  constructor
  · decide
  · decide

/-- C9 (amended): the forum index walk returns the order-preserving
de-duplication (keyed by absolute URL) of the stream of thread links it
examined — hence a duplicate-free list in discovery order; when
`thread_limit ≥ 1` is set the result has at most `thread_limit` entries;
when `max_pages ≥ 1` is set the walk fetches at most `max_pages` index
pages and stops by itself within that bound (more fuel does not change the
outcome); for `thread_limit = 0` or `max_pages = 0` the source checks the
caps only after appending/fetching, so the bounds hold in the `≥ 1` form. -/
theorem c9_amended (net : String → IndexPage) (forum_url : String)
    (max_pages thread_limit : Option Nat) (fuel : Nat) :
    ((get_thread_list net forum_url max_pages thread_limit fuel).threads =
      dedup_append [] (get_thread_list net forum_url max_pages thread_limit fuel).stream) ∧
    (get_thread_list net forum_url max_pages thread_limit fuel).threads.Nodup ∧
    (∀ k, thread_limit = some k → 1 ≤ k →
      (get_thread_list net forum_url max_pages thread_limit fuel).threads.length ≤ k) ∧
    (∀ m, max_pages = some m → 1 ≤ m →
      (get_thread_list net forum_url max_pages thread_limit fuel).fetches ≤ m) ∧
    (∀ m, max_pages = some m → 1 ≤ m → m ≤ fuel →
      get_thread_list net forum_url max_pages thread_limit fuel =
        get_thread_list net forum_url max_pages thread_limit m) := by
  have hdedup := thread_list_go_dedup net thread_limit max_pages fuel [] [] forum_url 1
    (by intro u; simp)
  refine ⟨hdedup, ?_, ?_, ?_, ?_⟩
  · show (thread_list_go net thread_limit max_pages fuel [] [] forum_url 1).threads.Nodup
    rw [hdedup]
    exact dedup_append_nodup _ [] List.nodup_nil
  · intro k hk h1
    rw [hk]
    exact thread_list_go_length net max_pages k fuel [] [] forum_url 1
      (by simp only [List.length_nil]; omega)
  · intro m hm h1
    rw [hm]
    show (thread_list_go net thread_limit (some m) fuel [] [] forum_url 1).fetches ≤ m
    have := thread_list_go_fetches net thread_limit m fuel [] [] forum_url 1 h1
    omega
  · intro m hm h1 hfuel
    rw [hm]
    show thread_list_go net thread_limit (some m) fuel [] [] forum_url 1 =
      thread_list_go net thread_limit (some m) m [] [] forum_url 1
    have h := thread_list_go_fuel net thread_limit m fuel [] [] forum_url 1 h1 (by omega)
    have h' := thread_list_go_fuel net thread_limit m m [] [] forum_url 1 h1 (by omega)
    rw [h, h']

/-- A concrete two-page forum index with a duplicated thread link. -/
def w_net : String → IndexPage :=
  fun u =>
    if u = "https://x/f/" then
      ⟨[some "/threads/a.1/", some "/threads/a.1/", some "/threads/b.2/"], some "/f/page-2"⟩
    else ⟨[some "/threads/c.3/"], none⟩

/-- C9 (witness): a concrete two-page walk with a duplicate link, checked
against the amended bounds at `thread_limit = 5`, `max_pages = 3`. -/
theorem c9_witness :
    ((get_thread_list w_net "https://x/f/" (some 3) (some 5) 9).threads =
      dedup_append [] (get_thread_list w_net "https://x/f/" (some 3) (some 5) 9).stream) ∧
    (get_thread_list w_net "https://x/f/" (some 3) (some 5) 9).threads.Nodup ∧
    (get_thread_list w_net "https://x/f/" (some 3) (some 5) 9).threads.length ≤ 5 ∧
    (get_thread_list w_net "https://x/f/" (some 3) (some 5) 9).fetches ≤ 3 ∧
    get_thread_list w_net "https://x/f/" (some 3) (some 5) 9 =
      get_thread_list w_net "https://x/f/" (some 3) (some 5) 3 :=
  ⟨(c9_amended w_net "https://x/f/" (some 3) (some 5) 9).1,
   (c9_amended w_net "https://x/f/" (some 3) (some 5) 9).2.1,
   (c9_amended w_net "https://x/f/" (some 3) (some 5) 9).2.2.1 5 rfl (by omega),
   (c9_amended w_net "https://x/f/" (some 3) (some 5) 9).2.2.2.1 3 rfl (by omega),
   (c9_amended w_net "https://x/f/" (some 3) (some 5) 9).2.2.2.2 3 rfl (by omega) (by omega)⟩

end DmRec
